import Mathlib

/-!
# Result allocation and serialization framing of the DAAL excerpt

A shallow embedding of

* `univariate_outlier_detection::Result::allocate`
  (algorithms/kernel/outlierdetection_univariate/outlier_detection_univariate_batch.h),
* the `Result` classes of the forward 2D convolution layer and of the backward
  3D maximum pooling layer (getSerializationTag, serializeImpl, deserializeImpl,
  serialImpl), and the declarations of `getValueSize` and `allocate` of the
  former.

Objects live in an explicit, append-only memory; a `SharedPtr` is an optional
address into it. Library parts that are used by the code above but are not part
of the sources are marked `Modelled from the spec:`.
-/

namespace daal

/-- Modelled from the spec: the floating-point precision type an algorithm is
templated on (`algorithmFPType`); the sources only name the template
parameter. -/
inductive FPType
  | float
  | double
  deriving DecidableEq, Repr

/-- An address of an object in memory. -/
abbrev Ptr := Nat

/-- A shared pointer: null (`none`) or the address of the object it shares. -/
abbrev SharedPtr := Option Ptr

/-- The memory that holds the objects shared pointers refer to. Objects are
only ever added (`new`); an address is an index into `objects`. -/
structure Memory (α : Type) where
  objects : List α
  deriving DecidableEq, Repr

/-- The object at address `p`, if any. -/
def Memory.deref {α : Type} (m : Memory α) (p : Ptr) : Option α :=
  m.objects[p]?

/-- The object a shared pointer refers to; a null pointer refers to none. -/
def Memory.load {α : Type} (m : Memory α) (sp : SharedPtr) : Option α :=
  sp.bind m.deref

/-- The effect of `new T(...)`: the object is placed at the first unused address. -/
def Memory.alloc {α : Type} (m : Memory α) (o : α) : Ptr × Memory α :=
  (m.objects.length, { objects := m.objects ++ [o] })

namespace services

/-- Modelled from the spec: an entry of the accumulated-errors collection
attached to an object (section 7); the error identifiers are not among the
sources. -/
structure Error where
  id : Int
  deriving DecidableEq, Repr

end services

namespace data_management

/-- The flag `NumericTable::doAllocate` / `notAllocate` passed to a table constructor. -/
inductive AllocationFlag
  | notAllocate
  | doAllocate
  deriving DecidableEq, Repr

/-- Modelled from the spec: the numeric table of the data-management library
(not among the sources), a 2-D container whose shape is queried via row/column
accessors. `elementType` is `some fp` for a `HomogenNumericTable<fp>`;
`ownsBuffer` records that the table allocated its own buffer. The contents of
the buffer are not modelled: `allocate` neither reads nor writes them. -/
structure NumericTable where
  elementType : Option FPType
  nColumns : Nat
  nRows : Nat
  ownsBuffer : Bool
  deriving DecidableEq, Repr

/-- Modelled from the spec: column-count accessor of a numeric table. -/
def NumericTable.getNumberOfColumns (t : NumericTable) : Nat := t.nColumns

/-- Modelled from the spec: row-count accessor of a numeric table. -/
def NumericTable.getNumberOfRows (t : NumericTable) : Nat := t.nRows

/-- Modelled from the spec: the constructor
`HomogenNumericTable<fp>(nColumns, nRows, memoryAllocationFlag)` of the
data-management library (not among the sources). Per the spec the weights
buffer built from `(nFeatures, nVectors)` is `[nFeatures, nVectors]`, matching
the input shape: the first argument is the number of columns, the second the
number of rows. -/
def HomogenNumericTable.new (fp : FPType) (nColumns nRows : Nat)
    (memoryAllocationFlag : AllocationFlag) : NumericTable :=
  { elementType := some fp
    nColumns := nColumns
    nRows := nRows
    ownsBuffer := decide (memoryAllocationFlag = AllocationFlag.doAllocate) }

end data_management

namespace algorithms

/-- Modelled from the spec: the base `daal::algorithms::Parameter` (not among
the sources); an opaque algorithm configuration. -/
structure Parameter where
  settings : List Int
  deriving DecidableEq, Repr

/-- Modelled from the spec: the base `Argument` of `algorithms::Input` and
`algorithms::Result` (not among the sources): `size` named slots, each storing
a shared pointer under an enumerated identifier, and the errors attached to the
object. -/
structure Argument where
  size : Nat
  storage : Nat → SharedPtr
  errors : List services.Error

/-- Modelled from the spec: `Argument::get(index)`, the pointer stored under a slot. -/
def Argument.get (a : Argument) (index : Nat) : SharedPtr := a.storage index

/-- Modelled from the spec: `Argument::set(index, value)`, storing a pointer
under a named slot. The index is an enumerated identifier of the class of the
object; the other slots, the slot count and the errors are left as they are. -/
def Argument.set (a : Argument) (index : Nat) (value : SharedPtr) : Argument :=
  { a with storage := fun i => if i = index then value else a.storage i }

/-- The base class `daal::algorithms::Input`. -/
abbrev Input := Argument

/-- The base class `daal::algorithms::Result`. -/
abbrev Result := Argument

/-- The library functions an operation may call, recorded in call order. -/
inductive Call
  | Input_get
  | NumericTable_getNumberOfColumns
  | NumericTable_getNumberOfRows
  | HomogenNumericTable_new
  | Argument_set
  | check
  deriving DecidableEq, Repr

namespace univariate_outlier_detection

/-- Modelled from the spec: `enum InputId { data }` of
outlier_detection_univariate_types.h (not among the sources). -/
def data : Nat := 0

/-- Modelled from the spec: `enum ResultId { weights }` of
outlier_detection_univariate_types.h (not among the sources). -/
def weights : Nat := 0

/-- Modelled from the spec: `Input::get(InputId)`, which reads the table shared
under the given slot of the input. -/
def Input.get (mem : Memory data_management.NumericTable) (input : Input) (id : Nat) :
    Option data_management.NumericTable :=
  mem.load (Argument.get input id)

/-- What a call of `Result::allocate` leaves behind: the memory, the Result
(`this`), the Input object the `const_cast` pointer refers to, and the library
calls made. -/
structure Outcome where
  memory : Memory data_management.NumericTable
  this : Result
  input : Input
  calls : List Call

/-- The function `template <typename algorithmFPType> void Result::allocate(const
Input *input, const Parameter *parameter, const int method)`; `input` points to
an Input object, `parameter` may be null. Dereferencing a null
`algInput->get(data)` is undefined: `none`. -/
def Result.allocate (fp : FPType) (mem : Memory data_management.NumericTable)
    (this : Result) (input : Input) (parameter : Option Parameter) (method : Int) :
    Option Outcome :=
  -- Input *algInput = static_cast<Input *>(const_cast<daal::algorithms::Input *>(input));
  let algInput : Input := input
  -- size_t nFeatures = algInput->get(data)->getNumberOfColumns();
  match Input.get mem algInput data with
  | none => none
  | some t₁ =>
    let nFeatures := t₁.getNumberOfColumns
    -- size_t nVectors  = algInput->get(data)->getNumberOfRows();
    match Input.get mem algInput data with
    | none => none
    | some t₂ =>
      let nVectors := t₂.getNumberOfRows
      -- Argument::set(weights, SerializationIfacePtr(
      --   new HomogenNumericTable<algorithmFPType>(nFeatures, nVectors, NumericTable::doAllocate)));
      let r := mem.alloc
        (data_management.HomogenNumericTable.new fp nFeatures nVectors
          data_management.AllocationFlag.doAllocate)
      some
        { memory := r.2
          this := Argument.set this weights (some r.1)
          input := algInput
          calls := [Call.Input_get, Call.NumericTable_getNumberOfColumns,
                    Call.Input_get, Call.NumericTable_getNumberOfRows,
                    Call.HomogenNumericTable_new, Call.Argument_set] }

/-- An example memory: a 5-row, 3-column table of doubles at address 0, a table
with no rows and no columns at address 1, a 2-row, 7-column table at address 2. -/
def exampleMemory : Memory data_management.NumericTable :=
  { objects := [{ elementType := some FPType.double, nColumns := 3, nRows := 5,
                  ownsBuffer := true },
                { elementType := none, nColumns := 0, nRows := 0, ownsBuffer := false },
                { elementType := some FPType.float, nColumns := 7, nRows := 2,
                  ownsBuffer := true }] }

/-- An example Input whose data slot shares the table at address 0. -/
def exampleInput : Input :=
  { size := 1, storage := fun i => if i = data then some 0 else none, errors := [] }

/-- An example Input whose data slot shares the empty table at address 1. -/
def exampleEmptyInput : Input :=
  { size := 1, storage := fun i => if i = data then some 1 else none, errors := [] }

/-- An example Input whose data slot shares the table at address 2. -/
def exampleOtherInput : Input :=
  { size := 1, storage := fun i => if i = data then some 2 else none, errors := [] }

/-- An example default-constructed Result: every slot is null. -/
def exampleResult : Result :=
  { size := 1, storage := fun _ => none, errors := [] }

end univariate_outlier_detection
end algorithms

/-! ## Neural-network layer Results: serialization tags and serialization -/

namespace data_management

/-- Modelled from the spec: the tensor of the data-management library (not among
the sources), an n-dimensional container: its element type, its shape (the
dimension collection) and its contained values as raw bit patterns. -/
structure Tensor where
  elementType : FPType
  dims : List Nat
  values : List Nat
  deriving DecidableEq, Repr

/-- Modelled from the spec: one item written to or read from an archive through
the abstract archive interface (the archive classes are not among the
sources): a count, or the image of the object behind a shared pointer (`none`
for a null pointer). The byte-level framing of an item is the archive's own
concern and is not modelled. -/
inductive ArchiveEntry
  | size (n : Nat)
  | object (o : Option Tensor)
  deriving DecidableEq, Repr

/-- Modelled from the spec: `InputDataArchive`, the archive an object is
serialized into; items are appended at the end. -/
structure InputDataArchive where
  entries : List ArchiveEntry
  deriving DecidableEq, Repr

/-- Modelled from the spec: `OutputDataArchive`, the archive an object is
deserialized from; items are taken from the front. -/
structure OutputDataArchive where
  entries : List ArchiveEntry
  deriving DecidableEq, Repr

end data_management

/-- Modelled from the spec: the two serialization tag constants the sources
name; they are defined in services/daal_defines.h, which is not among the
sources. The spec gives no values, only that a tag is an integer identifying
its concrete type and that tag values are unique per concrete class: `unique`
is that invariant for the two classes at hand. -/
structure SerializationTags where
  SERIALIZATION_NEURAL_NETWORKS_LAYERS_CONVOLUTION2D_FORWARD_RESULT_ID : Int
  SERIALIZATION_NEURAL_NETWORKS_LAYERS_MAXIMUM_POOLING3D_BACKWARD_RESULT_ID : Int
  unique : SERIALIZATION_NEURAL_NETWORKS_LAYERS_CONVOLUTION2D_FORWARD_RESULT_ID ≠
    SERIALIZATION_NEURAL_NETWORKS_LAYERS_MAXIMUM_POOLING3D_BACKWARD_RESULT_ID

namespace algorithms

/-- What a serialization operation of a Result works on besides the archive:
the memory and the Result itself (`this`). -/
structure ObjectState where
  memory : Memory data_management.Tensor
  this : Result

/-- The archive type a `serialImpl<Archive, onDeserialize>` instance is used
with: `InputDataArchive` when serializing, `OutputDataArchive` when
deserializing. -/
@[reducible] def ArchiveOf : Bool → Type
  | false => data_management.InputDataArchive
  | true => data_management.OutputDataArchive

/-- The type of `template<typename Archive, bool onDeserialize> void
serialImpl(Archive *arch)`: it updates the archive and the object, and is
undefined (`none`) where the archive or a pointer cannot be read. -/
abbrev SerialImpl : Type :=
  (onDeserialize : Bool) → ArchiveOf onDeserialize → ObjectState →
    Option (ArchiveOf onDeserialize × ObjectState)

/-- Modelled from the spec: the default constructor of a Result with `size`
slots (the constructors are declared, not defined, in the sources): the Result
is default-constructed with every slot null and no error attached. -/
def Result.new (size : Nat) : Result :=
  { size := size, storage := fun _ => none, errors := [] }

/-- Modelled from the spec: serialize mode of the base class, the slots in
`ids` one after the other: the image of the object each slot shares is
appended to the archive (a null marker for a null slot). Reading through a
pointer to no object is undefined. -/
def Result.writeSlots (mem : Memory data_management.Tensor) (this : Result) :
    List Nat → List data_management.ArchiveEntry → Option (List data_management.ArchiveEntry)
  | [], acc => some acc
  | i :: ids, acc =>
    match Argument.get this i with
    | none => Result.writeSlots mem this ids (acc ++ [data_management.ArchiveEntry.object none])
    | some p =>
      match mem.deref p with
      | none => none
      | some t =>
        Result.writeSlots mem this ids (acc ++ [data_management.ArchiveEntry.object (some t)])

/-- Modelled from the spec: deserialize mode of the base class, the slots in
`ids` one after the other: the next item of the archive is taken; for a null
marker the slot is set to null, for an object image a new object is
constructed from it and shared by the slot. An archive that has no object item
next is undefined. -/
def Result.readSlots :
    List Nat → List data_management.ArchiveEntry → ObjectState →
      Option (List data_management.ArchiveEntry × ObjectState)
  | [], es, st => some (es, st)
  | i :: ids, data_management.ArchiveEntry.object none :: es, st =>
    Result.readSlots ids es { st with this := Argument.set st.this i none }
  | i :: ids, data_management.ArchiveEntry.object (some t) :: es, st =>
    Result.readSlots ids es
      { memory := (st.memory.alloc t).2
        this := Argument.set st.this i (some (st.memory.alloc t).1) }
  | _ :: _, _, _ => none

/-- Modelled from the spec: `daal::algorithms::Result::serialImpl<Archive,
onDeserialize>` of the base class (not among the sources), which serializes or
deserializes the internal state of a Result through the archive interface: the
slot count, then the slots in order. Serializing leaves the object as it is;
deserializing overwrites the slot count and the slots from the archive. -/
def Result.serialImpl : SerialImpl := fun onDeserialize =>
  match onDeserialize with
  | false => fun (arch : data_management.InputDataArchive) st =>
    (Result.writeSlots st.memory st.this (List.range st.this.size)
        (arch.entries ++ [data_management.ArchiveEntry.size st.this.size])).map
      fun es => ({ entries := es }, st)
  | true => fun (arch : data_management.OutputDataArchive) st =>
    match arch.entries with
    | data_management.ArchiveEntry.size n :: es =>
      (Result.readSlots (List.range n) es
          { st with this := { st.this with size := n } }).map
        fun r => ({ entries := r.1 }, r.2)
    | _ => none

namespace neural_networks
namespace layers

namespace forward

/-- Modelled from the spec: `enum InputId { data }` of layer_forward_types.h
(not among the sources), the slot of the input tensor. -/
def data : Nat := 0

/-- Modelled from the spec: `enum ResultId { value }` of layer_forward_types.h
(not among the sources), the slot of the value tensor. -/
def value : Nat := 0

end forward

namespace convolution2d
namespace forward

/-- The class `convolution2d::forward::Result`: it declares no data member, its
state is that of the base `daal::algorithms::Result`. -/
abbrev Result := algorithms.Result

/-- The method `int getSerializationTag()`: the returned tag and the object
after the call. -/
def Result.getSerializationTag (tags : SerializationTags) (this : Result) : Int × Result :=
  (tags.SERIALIZATION_NEURAL_NETWORKS_LAYERS_CONVOLUTION2D_FORWARD_RESULT_ID, this)

/-- The method `template<typename Archive, bool onDeserialize> void
serialImpl(Archive *arch)`: calls `daal::algorithms::Result::serialImpl<Archive, onDeserialize>(arch)`, here
the parameter `base`. -/
def Result.serialImpl (base : SerialImpl) (onDeserialize : Bool)
    (arch : ArchiveOf onDeserialize) (st : ObjectState) :
    Option (ArchiveOf onDeserialize × ObjectState) :=
  base onDeserialize arch st

/-- The method `void serializeImpl(InputDataArchive *arch)`:
`serialImpl<InputDataArchive, false>(arch)`. -/
def Result.serializeImpl (base : SerialImpl) (arch : data_management.InputDataArchive)
    (st : ObjectState) : Option (data_management.InputDataArchive × ObjectState) :=
  Result.serialImpl base false arch st

/-- The method `void deserializeImpl(OutputDataArchive *arch)`:
`serialImpl<OutputDataArchive, true>(arch)`. -/
def Result.deserializeImpl (base : SerialImpl) (arch : data_management.OutputDataArchive)
    (st : ObjectState) : Option (data_management.OutputDataArchive × ObjectState) :=
  Result.serialImpl base true arch st

/-- Modelled from the spec: `Result::getValueSize(inputSize, parameter, method)
const`, declared but not defined in the sources: a pure query that computes the
dimension collection of the value tensor from the input shape and the
Parameter, without changing the Result. The spec does not detail the shape
rule of the convolution; it is the parameter `rule`. -/
def Result.getValueSize (rule : List Nat → Option Parameter → Int → List Nat)
    (this : Result) (inputSize : List Nat) (parameter : Option Parameter) (method : Int) :
    List Nat × Result :=
  (rule inputSize parameter method, this)

/-- Modelled from the spec: `Result::allocate<algorithmFPType>(input, parameter,
method)`, declared but not defined in the sources: it reads the shape of the
input data tensor, derives the output shape by the rule of the layer (the one
the shape query returns), allocates a tensor of that shape and of the
algorithm's floating-point type, and stores it under the `value` slot.
`contents` is what the fresh buffer happens to hold. A null data slot is
undefined. -/
def Result.allocate (rule : List Nat → Option Parameter → Int → List Nat) (fp : FPType)
    (contents : List Nat) (st : ObjectState) (input : Input)
    (parameter : Option Parameter) (method : Int) : Option ObjectState :=
  match st.memory.load (Argument.get input layers.forward.data) with
  | none => none
  | some x =>
    let shape := rule x.dims parameter method
    let r := st.memory.alloc { elementType := fp, dims := shape, values := contents }
    some { memory := r.2, this := Argument.set st.this layers.forward.value (some r.1) }

end forward
end convolution2d

namespace maximum_pooling3d
namespace backward

/-- The class `maximum_pooling3d::backward::Result`: it declares no data
member, its state is that of the base `daal::algorithms::Result`. -/
abbrev Result := algorithms.Result

/-- The method `int getSerializationTag()`: the returned tag and the object
after the call. -/
def Result.getSerializationTag (tags : SerializationTags) (this : Result) : Int × Result :=
  (tags.SERIALIZATION_NEURAL_NETWORKS_LAYERS_MAXIMUM_POOLING3D_BACKWARD_RESULT_ID, this)

/-- The method `template<typename Archive, bool onDeserialize> void
serialImpl(Archive *arch)`: calls `daal::algorithms::Result::serialImpl<Archive, onDeserialize>(arch)`, here
the parameter `base`. -/
def Result.serialImpl (base : SerialImpl) (onDeserialize : Bool)
    (arch : ArchiveOf onDeserialize) (st : ObjectState) :
    Option (ArchiveOf onDeserialize × ObjectState) :=
  base onDeserialize arch st

/-- The method `void serializeImpl(InputDataArchive *arch)`:
`serialImpl<InputDataArchive, false>(arch)`. -/
def Result.serializeImpl (base : SerialImpl) (arch : data_management.InputDataArchive)
    (st : ObjectState) : Option (data_management.InputDataArchive × ObjectState) :=
  Result.serialImpl base false arch st

/-- The method `void deserializeImpl(OutputDataArchive *arch)`:
`serialImpl<OutputDataArchive, true>(arch)`. -/
def Result.deserializeImpl (base : SerialImpl) (arch : data_management.OutputDataArchive)
    (st : ObjectState) : Option (data_management.OutputDataArchive × ObjectState) :=
  Result.serialImpl base true arch st

end backward
end maximum_pooling3d

end layers
end neural_networks
end algorithms

/-! ## Example objects -/

/-- Example tag values (two distinct integers). -/
def exampleTags : SerializationTags :=
  { SERIALIZATION_NEURAL_NETWORKS_LAYERS_CONVOLUTION2D_FORWARD_RESULT_ID := 1
    SERIALIZATION_NEURAL_NETWORKS_LAYERS_MAXIMUM_POOLING3D_BACKWARD_RESULT_ID := 2
    unique := by decide }

/-- An example memory of tensors: a 2-by-2 tensor of floats at address 0 and a
1-by-3 tensor of doubles at address 1. -/
def exampleTensors : Memory data_management.Tensor :=
  { objects := [{ elementType := FPType.float, dims := [2, 2], values := [10, 20, 30, 40] },
                { elementType := FPType.double, dims := [1, 3], values := [7, 8, 9] }] }

/-- An example Result with three slots: slot 0 shares the tensor at address 1,
slot 1 is null, slot 2 shares the tensor at address 0. -/
def exampleLayerResult : algorithms.Result :=
  { size := 3
    storage := fun i => if i = 0 then some 1 else if i = 2 then some 0 else none
    errors := [] }

/-- An example layer Input whose data slot shares the 2-by-2 tensor at address 0. -/
def exampleLayerInput : algorithms.Input :=
  { size := 1
    storage := fun i => if i = algorithms.neural_networks.layers.forward.data then some 0
      else none
    errors := [] }

/-- An example shape rule: every input dimension shrinks by the first setting of
the parameter (a kernel size), plus one. -/
def exampleShapeRule (inputSize : List Nat) (parameter : Option algorithms.Parameter)
    (_method : Int) : List Nat :=
  match parameter with
  | none => inputSize
  | some par => inputSize.map fun d => d - (par.settings.headD 1).toNat + 1

/-! ## Memory lemmas -/

theorem Memory.deref_alloc_new {α : Type} (m : Memory α) (o : α) :
    (m.alloc o).2.deref (m.alloc o).1 = some o := by
  simp [Memory.alloc, Memory.deref]

theorem Memory.deref_alloc_old {α : Type} (m : Memory α) (o x : α) (p : Ptr)
    (h : m.deref p = some x) : (m.alloc o).2.deref p = some x := by
  simp only [Memory.alloc, Memory.deref] at h ⊢
  have hp : p < m.objects.length := by
    rcases Nat.lt_or_ge p m.objects.length with hlt | hge
    · exact hlt
    · rw [List.getElem?_eq_none hge] at h
      cases h
  rw [List.getElem?_append_left hp]
  exact h

theorem Memory.deref_fresh {α : Type} (m : Memory α) (o : α) :
    m.deref (m.alloc o).1 = none := by
  simp [Memory.alloc, Memory.deref]

theorem Memory.load_alloc_old {α : Type} (m : Memory α) (o x : α) (sp : SharedPtr)
    (h : m.load sp = some x) : (m.alloc o).2.load sp = some x := by
  cases sp with
  | none => simp [Memory.load] at h
  | some p =>
    simp only [Memory.load, Option.bind] at h ⊢
    exact Memory.deref_alloc_old m o x p h

namespace algorithms
namespace univariate_outlier_detection

open data_management

/-- With a populated data slot, allocate returns this outcome. -/
theorem Result.allocate_eq (fp : FPType) (mem : Memory NumericTable) (this : Result)
    (input : Input) (parameter : Option Parameter) (method : Int) (t : NumericTable)
    (hdata : Input.get mem input data = some t) :
    Result.allocate fp mem this input parameter method =
      some
        { memory := (mem.alloc (HomogenNumericTable.new fp t.nColumns t.nRows
            AllocationFlag.doAllocate)).2
          this := Argument.set this weights
            (some (mem.alloc (HomogenNumericTable.new fp t.nColumns t.nRows
              AllocationFlag.doAllocate)).1)
          input := input
          calls := [Call.Input_get, Call.NumericTable_getNumberOfColumns,
                    Call.Input_get, Call.NumericTable_getNumberOfRows,
                    Call.HomogenNumericTable_new, Call.Argument_set] } := by
  simp [Result.allocate, hdata, NumericTable.getNumberOfColumns, NumericTable.getNumberOfRows]

/-- C1: for an input whose data table has r rows and c columns, allocate leaves
in the weights slot a pointer to a table that did not exist before the call
(newly allocated, owning its buffer), homogeneous of element type
algorithmFPType, with exactly c columns and r rows. -/
theorem Result.allocate_weights_shape (fp : FPType) (mem : Memory NumericTable)
    (this : Result) (input : Input) (parameter : Option Parameter) (method : Int)
    (t : NumericTable) (r c : Nat)
    (hdata : Input.get mem input data = some t)
    (hr : t.getNumberOfRows = r) (hc : t.getNumberOfColumns = c) :
    ∃ out p w, Result.allocate fp mem this input parameter method = some out ∧
      Argument.get out.this weights = some p ∧
      mem.deref p = none ∧
      out.memory.deref p = some w ∧
      w.elementType = some fp ∧ w.ownsBuffer = true ∧
      w.getNumberOfColumns = c ∧ w.getNumberOfRows = r := by
  subst hr hc
  refine ⟨_, (mem.alloc (HomogenNumericTable.new fp t.nColumns t.nRows
      AllocationFlag.doAllocate)).1,
    HomogenNumericTable.new fp t.nColumns t.nRows AllocationFlag.doAllocate,
    Result.allocate_eq fp mem this input parameter method t hdata, ?_, ?_, ?_, ?_⟩
  · simp [Argument.get, Argument.set]
  · exact Memory.deref_fresh mem _
  · exact Memory.deref_alloc_new mem _
  · simp [HomogenNumericTable.new, NumericTable.getNumberOfColumns,
      NumericTable.getNumberOfRows]

/-- Witness of C1 on the 5-row, 3-column example table, with element type float. -/
theorem Result.allocate_weights_shape_witness :
    ∃ out p w, Result.allocate FPType.float exampleMemory exampleResult exampleInput none 0
        = some out ∧
      Argument.get out.this weights = some p ∧
      exampleMemory.deref p = none ∧
      out.memory.deref p = some w ∧
      w.elementType = some FPType.float ∧ w.ownsBuffer = true ∧
      w.getNumberOfColumns = 3 ∧ w.getNumberOfRows = 5 :=
  Result.allocate_weights_shape FPType.float exampleMemory exampleResult exampleInput none 0
    { elementType := some FPType.double, nColumns := 3, nRows := 5, ownsBuffer := true }
    5 3 rfl rfl rfl

/-- C2: allocate writes only the weights slot of the Result: every other slot,
the slot count and the attached errors are as before; the Input object is the
same, every object that was in memory (the input data table among them) is
unchanged, so the data slot still shares the same table. -/
theorem Result.allocate_frame (fp : FPType) (mem : Memory NumericTable)
    (this : Result) (input : Input) (parameter : Option Parameter) (method : Int)
    (out : Outcome)
    (h : Result.allocate fp mem this input parameter method = some out) :
    (∀ id, id ≠ weights → Argument.get out.this id = Argument.get this id) ∧
      out.this.size = this.size ∧ out.this.errors = this.errors ∧
      out.input = input ∧
      (∀ p o, mem.deref p = some o → out.memory.deref p = some o) ∧
      Input.get out.memory out.input data = Input.get mem input data := by
  cases hdata : Input.get mem input data with
  | none => simp [Result.allocate, hdata] at h
  | some t =>
    rw [Result.allocate_eq fp mem this input parameter method t hdata] at h
    injection h with h
    subst h
    refine ⟨?_, rfl, rfl, rfl, ?_, ?_⟩
    · intro id hid
      simp [Argument.get, Argument.set, hid]
    · intro p o hp
      exact Memory.deref_alloc_old mem _ o p hp
    · exact Memory.load_alloc_old mem _ t _ hdata

/-- Witness of C2 on the example input: slot 1 of the Result and the table the
input shares are as before. -/
theorem Result.allocate_frame_witness :
    ∃ out, Result.allocate FPType.float exampleMemory exampleResult exampleInput none 0
        = some out ∧
      ((∀ id, id ≠ weights → Argument.get out.this id = Argument.get exampleResult id) ∧
        out.this.size = exampleResult.size ∧ out.this.errors = exampleResult.errors ∧
        out.input = exampleInput ∧
        (∀ p o, exampleMemory.deref p = some o → out.memory.deref p = some o) ∧
        Input.get out.memory out.input data = Input.get exampleMemory exampleInput data) :=
  ⟨_, rfl, Result.allocate_frame FPType.float exampleMemory exampleResult exampleInput
    none 0 _ rfl⟩

/-- C3: allocate is defined exactly when the data slot of the input is
populated; then, whatever the dimensions of the data table, it completes, makes
no call of check, attaches no error to the Result or to the Input, and sets the
weights slot. -/
theorem Result.allocate_no_validation (fp : FPType) (mem : Memory NumericTable)
    (this : Result) (input : Input) (parameter : Option Parameter) (method : Int) :
    ((Result.allocate fp mem this input parameter method).isSome = true ↔
        (Input.get mem input data).isSome = true) ∧
      ∀ t, Input.get mem input data = some t →
        ∃ out, Result.allocate fp mem this input parameter method = some out ∧
          Call.check ∉ out.calls ∧
          out.this.errors = this.errors ∧ out.input.errors = input.errors ∧
          (Argument.get out.this weights).isSome = true := by
  constructor
  · cases hdata : Input.get mem input data with
    | none => simp [Result.allocate, hdata]
    | some t => simp [Result.allocate_eq fp mem this input parameter method t hdata]
  · intro t hdata
    refine ⟨_, Result.allocate_eq fp mem this input parameter method t hdata, ?_, rfl, rfl, ?_⟩
    · simp
    · simp [Argument.get, Argument.set]

/-- Witness of C3 on an input whose data table has no rows and no columns. -/
theorem Result.allocate_no_validation_witness :
    ∃ out, Result.allocate FPType.double exampleMemory exampleResult exampleEmptyInput none 0
        = some out ∧
      Call.check ∉ out.calls ∧
      out.this.errors = exampleResult.errors ∧ out.input.errors = exampleEmptyInput.errors ∧
      (Argument.get out.this weights).isSome = true :=
  (Result.allocate_no_validation FPType.double exampleMemory exampleResult exampleEmptyInput
    none 0).2 { elementType := none, nColumns := 0, nRows := 0, ownsBuffer := false } rfl

/-- C4: a second allocate on the same Result is carried out like the first:
after allocate(A) then allocate(B) the weights slot shares a table with B's
column and row counts, equal to the table it shares after allocate(B) alone;
the pointer stored by allocate(A) has been replaced, and every other slot is as
after allocate(B) alone. -/
theorem Result.allocate_twice (fpA fpB : FPType) (mem : Memory NumericTable)
    (this : Result) (inputA inputB : Input) (parameterA parameterB : Option Parameter)
    (methodA methodB : Int) (tA tB : NumericTable)
    (hA : Input.get mem inputA data = some tA)
    (hB : Input.get mem inputB data = some tB) :
    ∃ outA outAB outB w,
      Result.allocate fpA mem this inputA parameterA methodA = some outA ∧
      Result.allocate fpB outA.memory outA.this inputB parameterB methodB = some outAB ∧
      Result.allocate fpB mem this inputB parameterB methodB = some outB ∧
      outAB.memory.load (Argument.get outAB.this weights) = some w ∧
      w.getNumberOfColumns = tB.getNumberOfColumns ∧
      w.getNumberOfRows = tB.getNumberOfRows ∧
      outB.memory.load (Argument.get outB.this weights) = some w ∧
      Argument.get outAB.this weights ≠ Argument.get outA.this weights ∧
      ∀ id, id ≠ weights → Argument.get outAB.this id = Argument.get outB.this id := by
  have hB2 : Input.get (mem.alloc (HomogenNumericTable.new fpA tA.nColumns tA.nRows
      AllocationFlag.doAllocate)).2 inputB data = some tB :=
    Memory.load_alloc_old mem _ tB _ hB
  refine ⟨_, _, _, HomogenNumericTable.new fpB tB.nColumns tB.nRows AllocationFlag.doAllocate,
    Result.allocate_eq fpA mem this inputA parameterA methodA tA hA,
    Result.allocate_eq fpB _ _ inputB parameterB methodB tB hB2,
    Result.allocate_eq fpB mem this inputB parameterB methodB tB hB, ?_, rfl, rfl, ?_, ?_, ?_⟩
  · simp only [Argument.get, Argument.set, if_true, Memory.load, Option.bind]
    exact Memory.deref_alloc_new _ _
  · simp only [Argument.get, Argument.set, if_true, Memory.load, Option.bind]
    exact Memory.deref_alloc_new _ _
  · simp [Argument.get, Argument.set, Memory.alloc]
  · intro id hid
    simp [Argument.get, Argument.set, hid]

/-- Witness of C4: allocate for the 5-by-3 example input, then for the 2-by-7 one. -/
theorem Result.allocate_twice_witness :
    ∃ outA outAB outB w,
      Result.allocate FPType.float exampleMemory exampleResult exampleInput none 0
        = some outA ∧
      Result.allocate FPType.double outA.memory outA.this exampleOtherInput none 1
        = some outAB ∧
      Result.allocate FPType.double exampleMemory exampleResult exampleOtherInput none 1
        = some outB ∧
      outAB.memory.load (Argument.get outAB.this weights) = some w ∧
      w.getNumberOfColumns = 7 ∧
      w.getNumberOfRows = 2 ∧
      outB.memory.load (Argument.get outB.this weights) = some w ∧
      Argument.get outAB.this weights ≠ Argument.get outA.this weights ∧
      ∀ id, id ≠ weights → Argument.get outAB.this id = Argument.get outB.this id :=
  Result.allocate_twice FPType.float FPType.double exampleMemory exampleResult exampleInput
    exampleOtherInput none none 0 1
    { elementType := some FPType.double, nColumns := 3, nRows := 5, ownsBuffer := true }
    { elementType := some FPType.float, nColumns := 7, nRows := 2, ownsBuffer := true }
    rfl rfl

/-- C9: allocate reads neither parameter nor method: any two (parameter, method)
pairs, a null parameter included, give the same outcome; and for two calls
whose input data tables agree in row and column counts the weights tables are
equal, whatever else differs. -/
theorem Result.allocate_ignores_parameter_method (fp : FPType) :
    (∀ (mem : Memory NumericTable) (this : Result) (input : Input)
        (parameter₁ parameter₂ : Option Parameter) (method₁ method₂ : Int),
        Result.allocate fp mem this input parameter₁ method₁ =
          Result.allocate fp mem this input parameter₂ method₂) ∧
      ∀ (mem mem2 : Memory NumericTable) (this this2 : Result) (input input2 : Input)
        (parameter parameter2 : Option Parameter) (method method2 : Int)
        (t t2 : NumericTable) (out out2 : Outcome),
        Input.get mem input data = some t → Input.get mem2 input2 data = some t2 →
        t.getNumberOfRows = t2.getNumberOfRows →
        t.getNumberOfColumns = t2.getNumberOfColumns →
        Result.allocate fp mem this input parameter method = some out →
        Result.allocate fp mem2 this2 input2 parameter2 method2 = some out2 →
        out.memory.load (Argument.get out.this weights) =
            out2.memory.load (Argument.get out2.this weights) ∧
          (out.memory.load (Argument.get out.this weights)).isSome = true := by
  constructor
  · intro mem this input parameter₁ parameter₂ method₁ method₂
    rfl
  · intro mem mem2 this this2 input input2 parameter parameter2 method method2 t t2 out out2
      h1 h2 hr hc ho ho2
    rw [Result.allocate_eq fp mem this input parameter method t h1] at ho
    rw [Result.allocate_eq fp mem2 this2 input2 parameter2 method2 t2 h2] at ho2
    injection ho with ho
    injection ho2 with ho2
    subst ho ho2
    simp only [NumericTable.getNumberOfRows, NumericTable.getNumberOfColumns] at hr hc
    simp only [Argument.get, Argument.set, if_true, Memory.load, Option.bind]
    rw [Memory.deref_alloc_new, Memory.deref_alloc_new, hr, hc]
    exact ⟨rfl, rfl⟩

/-- Witness of C9: a null parameter with method 0 against a non-null parameter
with method 5 on the example input. -/
theorem Result.allocate_ignores_parameter_method_witness :
    Result.allocate FPType.float exampleMemory exampleResult exampleInput none 0 =
      Result.allocate FPType.float exampleMemory exampleResult exampleInput
        (some { settings := [1, 2] }) 5 :=
  (Result.allocate_ignores_parameter_method FPType.float).1 exampleMemory exampleResult
    exampleInput none (some { settings := [1, 2] }) 0 5

end univariate_outlier_detection
end algorithms

/-! ## Serialization round trip -/

namespace algorithms

open data_management

/-- Serialize mode over slots that share objects (or are null) appends one
object item per slot, in order. -/
theorem Result.writeSlots_eq (mem : Memory Tensor) (this : Result) (ids : List Nat) :
    ∀ acc : List ArchiveEntry,
      (∀ i ∈ ids, ∀ p, Argument.get this i = some p → (mem.deref p).isSome = true) →
      Result.writeSlots mem this ids acc =
        some (acc ++ ids.map fun i => ArchiveEntry.object (mem.load (Argument.get this i))) := by
  induction ids with
  | nil =>
    intro acc _
    simp [Result.writeSlots]
  | cons i ids ih =>
    intro acc h
    have hrest : ∀ j ∈ ids, ∀ p, Argument.get this j = some p → (mem.deref p).isSome = true :=
      fun j hj => h j (List.mem_cons_of_mem _ hj)
    cases hg : Argument.get this i with
    | none => simp [Result.writeSlots, hg, ih _ hrest, Memory.load]
    | some p =>
      have hp := h i (List.mem_cons_self _ _) p hg
      cases hd : mem.deref p with
      | none => simp [hd] at hp
      | some t => simp [Result.writeSlots, hg, hd, ih _ hrest, Memory.load]

/-- Deserialize mode over distinct slots, from an archive that starts with one
object item per slot: the items are consumed, each slot shares an object equal
to its item, the other slots and the objects already in memory are untouched. -/
theorem Result.readSlots_spec (f : Nat → Option Tensor) (rest : List ArchiveEntry)
    (ids : List Nat) :
    ids.Nodup → ∀ st : ObjectState, ∃ st2 : ObjectState,
      Result.readSlots ids ((ids.map fun i => ArchiveEntry.object (f i)) ++ rest) st
        = some (rest, st2) ∧
      st2.this.size = st.this.size ∧ st2.this.errors = st.this.errors ∧
      (∀ j, j ∉ ids → Argument.get st2.this j = Argument.get st.this j) ∧
      (∀ p o, st.memory.deref p = some o → st2.memory.deref p = some o) ∧
      (∀ i ∈ ids, st2.memory.load (Argument.get st2.this i) = f i ∧
        (Argument.get st2.this i).isSome = (f i).isSome) := by
  induction ids with
  | nil =>
    intro _ st
    exact ⟨st, by simp [Result.readSlots], rfl, rfl, fun _ _ => rfl, fun _ _ h => h,
      fun i hi => by cases hi⟩
  | cons i ids ih =>
    intro hnd st
    have hi : i ∉ ids := (List.nodup_cons.mp hnd).1
    have hnd2 : ids.Nodup := (List.nodup_cons.mp hnd).2
    cases hf : f i with
    | none =>
      obtain ⟨st2, hrun, hsize, herr, hother, hmem, hslots⟩ :=
        ih hnd2 { st with this := Argument.set st.this i none }
      refine ⟨st2, ?_, ?_, ?_, ?_, ?_, ?_⟩
      · simp only [List.map_cons, List.cons_append, hf, Result.readSlots]
        exact hrun
      · rw [hsize]; rfl
      · rw [herr]; rfl
      · intro j hj
        have hj1 : j ≠ i := fun h => hj (h ▸ List.mem_cons_self _ _)
        have hj2 : j ∉ ids := fun h => hj (List.mem_cons_of_mem _ h)
        rw [hother j hj2]
        simp [Argument.get, Argument.set, hj1]
      · exact hmem
      · intro j hj
        rcases List.mem_cons.mp hj with rfl | hj
        · rw [hother j hi, hf]
          simp [Argument.get, Argument.set, Memory.load]
        · exact hslots j hj
    | some t =>
      obtain ⟨st2, hrun, hsize, herr, hother, hmem, hslots⟩ :=
        ih hnd2 { memory := (st.memory.alloc t).2
                  this := Argument.set st.this i (some (st.memory.alloc t).1) }
      refine ⟨st2, ?_, ?_, ?_, ?_, ?_, ?_⟩
      · simp only [List.map_cons, List.cons_append, hf, Result.readSlots]
        exact hrun
      · rw [hsize]; rfl
      · rw [herr]; rfl
      · intro j hj
        have hj1 : j ≠ i := fun h => hj (h ▸ List.mem_cons_self _ _)
        have hj2 : j ∉ ids := fun h => hj (List.mem_cons_of_mem _ h)
        rw [hother j hj2]
        simp [Argument.get, Argument.set, hj1]
      · intro p o hp
        exact hmem p o (Memory.deref_alloc_old st.memory t o p hp)
      · intro j hj
        rcases List.mem_cons.mp hj with rfl | hj
        · rw [hother j hi, hf]
          have hnew := hmem _ _ (Memory.deref_alloc_new st.memory t)
          simp only [Argument.get, Argument.set, if_true, Memory.load, Option.bind,
            Option.isSome]
          exact ⟨hnew, trivial⟩
        · exact hslots j hj

/-- Round trip of the base class: the image written for an object with valid
pointers is read back, from any archive that continues with `rest`, into an
object with the same slot count whose slots share equal objects. -/
theorem Result.serialImpl_round_trip (mem : Memory Tensor) (R : Result)
    (pre rest : List ArchiveEntry) (st₀ : ObjectState)
    (hvalid : ∀ i, i < R.size →
      (mem.load (Argument.get R i)).isSome = (Argument.get R i).isSome) :
    ∃ (image : List ArchiveEntry) (st2 : ObjectState),
      Result.serialImpl false { entries := pre } { memory := mem, this := R } =
        some ({ entries := pre ++ image }, { memory := mem, this := R }) ∧
      Result.serialImpl true { entries := image ++ rest } st₀ =
        some ({ entries := rest }, st2) ∧
      st2.this.size = R.size ∧ st2.this.errors = st₀.this.errors ∧
      (∀ p o, st₀.memory.deref p = some o → st2.memory.deref p = some o) ∧
      ∀ i, i < R.size →
        st2.memory.load (Argument.get st2.this i) = mem.load (Argument.get R i) ∧
        (Argument.get st2.this i).isSome = (Argument.get R i).isSome := by
  have hvalid2 : ∀ i ∈ List.range R.size, ∀ p, Argument.get R i = some p →
      (mem.deref p).isSome = true := by
    intro i hi p hp
    have h := hvalid i (List.mem_range.mp hi)
    simpa [hp, Memory.load] using h
  obtain ⟨st2, hrun, hsize, herr, _, hmem, hslots⟩ :=
    Result.readSlots_spec (fun i => mem.load (Argument.get R i)) rest (List.range R.size)
      (List.nodup_range R.size) { st₀ with this := { st₀.this with size := R.size } }
  refine ⟨ArchiveEntry.size R.size ::
      (List.range R.size).map fun i => ArchiveEntry.object (mem.load (Argument.get R i)),
    st2, ?_, ?_, hsize, herr, hmem, ?_⟩
  · simp [Result.serialImpl, Result.writeSlots_eq mem R _ _ hvalid2]
  · simp only [Result.serialImpl, List.cons_append, hrun, Option.map]
  · intro i hi
    have h := hslots i (List.mem_range.mpr hi)
    exact ⟨h.1, h.2.trans (hvalid i hi)⟩

end algorithms

namespace algorithms
namespace neural_networks
namespace layers

open data_management

/-- C5: the serialization tag is stable: for every state of a convolution2d
forward Result getSerializationTag returns
SERIALIZATION_NEURAL_NETWORKS_LAYERS_CONVOLUTION2D_FORWARD_RESULT_ID, for every
state of a maximum_pooling3d backward Result it returns
SERIALIZATION_NEURAL_NETWORKS_LAYERS_MAXIMUM_POOLING3D_BACKWARD_RESULT_ID; the
object is the same after the call, and two objects of one class have the same
tag whatever their contents. -/
theorem getSerializationTag_stable (tags : SerializationTags) :
    (∀ this : convolution2d.forward.Result,
        convolution2d.forward.Result.getSerializationTag tags this =
          (tags.SERIALIZATION_NEURAL_NETWORKS_LAYERS_CONVOLUTION2D_FORWARD_RESULT_ID, this)) ∧
      (∀ this : maximum_pooling3d.backward.Result,
        maximum_pooling3d.backward.Result.getSerializationTag tags this =
          (tags.SERIALIZATION_NEURAL_NETWORKS_LAYERS_MAXIMUM_POOLING3D_BACKWARD_RESULT_ID,
            this)) ∧
      (∀ r₁ r₂ : convolution2d.forward.Result,
        (convolution2d.forward.Result.getSerializationTag tags r₁).1 =
          (convolution2d.forward.Result.getSerializationTag tags r₂).1) ∧
      (∀ r₁ r₂ : maximum_pooling3d.backward.Result,
        (maximum_pooling3d.backward.Result.getSerializationTag tags r₁).1 =
          (maximum_pooling3d.backward.Result.getSerializationTag tags r₂).1) :=
  ⟨fun _ => rfl, fun _ => rfl, fun _ _ => rfl, fun _ _ => rfl⟩

/-- C10: neither class adds serialized fields: for every base implementation,
archive and object, serializeImpl is the base serialImpl with onDeserialize =
false and deserializeImpl is the base serialImpl with onDeserialize = true, so
the two classes serialize and deserialize by the same function. -/
theorem serializeImpl_eq_base (base : SerialImpl) :
    (∀ (arch : InputDataArchive) (st : ObjectState),
        convolution2d.forward.Result.serializeImpl base arch st = base false arch st ∧
        maximum_pooling3d.backward.Result.serializeImpl base arch st = base false arch st) ∧
      (∀ (arch : OutputDataArchive) (st : ObjectState),
        convolution2d.forward.Result.deserializeImpl base arch st = base true arch st ∧
        maximum_pooling3d.backward.Result.deserializeImpl base arch st = base true arch st) ∧
      convolution2d.forward.Result.serializeImpl base =
        maximum_pooling3d.backward.Result.serializeImpl base ∧
      convolution2d.forward.Result.deserializeImpl base =
        maximum_pooling3d.backward.Result.deserializeImpl base :=
  ⟨fun _ _ => ⟨rfl, rfl⟩, fun _ _ => ⟨rfl, rfl⟩, rfl, rfl⟩

/-- C8: for an input whose data slot shares a tensor, allocate stores under the
value slot a tensor whose dimensions are the ones getValueSize returns for the
dimensions of the input tensor, the parameter and the method; getValueSize
returns the Result unchanged. -/
theorem allocate_shape_eq_getValueSize (rule : List Nat → Option Parameter → Int → List Nat)
    (fp : FPType) (contents : List Nat) (st : ObjectState) (input : Input)
    (parameter : Option Parameter) (method : Int) (x : Tensor)
    (hdata : st.memory.load (Argument.get input forward.data) = some x) :
    ∃ st2 p v,
      convolution2d.forward.Result.allocate rule fp contents st input parameter method
        = some st2 ∧
      Argument.get st2.this forward.value = some p ∧
      st2.memory.deref p = some v ∧
      v.dims =
        (convolution2d.forward.Result.getValueSize rule st.this x.dims parameter method).1 ∧
      v.elementType = fp ∧
      (convolution2d.forward.Result.getValueSize rule st.this x.dims parameter method).2
        = st.this := by
  refine ⟨ObjectState.mk
      (st.memory.alloc
        { elementType := fp, dims := rule x.dims parameter method, values := contents }).2
      (Argument.set st.this forward.value (some (st.memory.alloc
        { elementType := fp, dims := rule x.dims parameter method, values := contents }).1)),
    (st.memory.alloc
      { elementType := fp, dims := rule x.dims parameter method, values := contents }).1,
    { elementType := fp, dims := rule x.dims parameter method, values := contents },
    ?_, ?_, ?_, rfl, rfl, rfl⟩
  · simp only [convolution2d.forward.Result.allocate, hdata]
  · simp [Argument.get, Argument.set]
  · exact Memory.deref_alloc_new _ _

/-- Witness of C8: the example input (a 2-by-2 tensor) with a kernel size of 2
under the example rule gives a 1-by-1 value tensor. -/
theorem allocate_shape_eq_getValueSize_witness :
    ∃ st2 p v,
      convolution2d.forward.Result.allocate exampleShapeRule FPType.float [0]
          { memory := exampleTensors, this := Result.new 2 } exampleLayerInput
          (some { settings := [2] }) 0
        = some st2 ∧
      Argument.get st2.this forward.value = some p ∧
      st2.memory.deref p = some v ∧
      v.dims =
        (convolution2d.forward.Result.getValueSize exampleShapeRule (Result.new 2) [2, 2]
          (some { settings := [2] }) 0).1 ∧
      v.elementType = FPType.float ∧
      (convolution2d.forward.Result.getValueSize exampleShapeRule (Result.new 2) [2, 2]
          (some { settings := [2] }) 0).2
        = Result.new 2 :=
  allocate_shape_eq_getValueSize exampleShapeRule FPType.float [0]
    { memory := exampleTensors, this := Result.new 2 } exampleLayerInput
    (some { settings := [2] }) 0
    { elementType := FPType.float, dims := [2, 2], values := [10, 20, 30, 40] } rfl

/-- C7: serialization round trip. For a convolution2d forward Result, and for a
maximum_pooling3d backward Result, R whose non-null slots share objects:
serializeImpl appends an image of R to the archive and leaves R as it is, and
deserializeImpl, run on a freshly constructed Result of the same slot count
from an archive that starts with that image, consumes exactly the image and
yields an object with the same tag and slot count as R, whose slots are null
where those of R are and otherwise share tensors equal to those of R (element
type, shape and contained values). -/
theorem serialization_round_trip (tags : SerializationTags) (mem : Memory Tensor)
    (R : algorithms.Result) (pre rest : List ArchiveEntry) (mem₀ : Memory Tensor)
    (hvalid : ∀ i, i < R.size →
      (mem.load (Argument.get R i)).isSome = (Argument.get R i).isSome) :
    (∃ (image : List ArchiveEntry) (st2 : ObjectState),
      convolution2d.forward.Result.serializeImpl algorithms.Result.serialImpl
          { entries := pre } { memory := mem, this := R } =
        some ({ entries := pre ++ image }, { memory := mem, this := R }) ∧
      convolution2d.forward.Result.deserializeImpl algorithms.Result.serialImpl
          { entries := image ++ rest } { memory := mem₀, this := algorithms.Result.new R.size } =
        some ({ entries := rest }, st2) ∧
      (convolution2d.forward.Result.getSerializationTag tags st2.this).1 =
        (convolution2d.forward.Result.getSerializationTag tags R).1 ∧
      st2.this.size = R.size ∧
      ∀ i, i < R.size →
        st2.memory.load (Argument.get st2.this i) = mem.load (Argument.get R i) ∧
        (Argument.get st2.this i).isSome = (Argument.get R i).isSome) ∧
    (∃ (image : List ArchiveEntry) (st2 : ObjectState),
      maximum_pooling3d.backward.Result.serializeImpl algorithms.Result.serialImpl
          { entries := pre } { memory := mem, this := R } =
        some ({ entries := pre ++ image }, { memory := mem, this := R }) ∧
      maximum_pooling3d.backward.Result.deserializeImpl algorithms.Result.serialImpl
          { entries := image ++ rest } { memory := mem₀, this := algorithms.Result.new R.size } =
        some ({ entries := rest }, st2) ∧
      (maximum_pooling3d.backward.Result.getSerializationTag tags st2.this).1 =
        (maximum_pooling3d.backward.Result.getSerializationTag tags R).1 ∧
      st2.this.size = R.size ∧
      ∀ i, i < R.size →
        st2.memory.load (Argument.get st2.this i) = mem.load (Argument.get R i) ∧
        (Argument.get st2.this i).isSome = (Argument.get R i).isSome) := by
  obtain ⟨image, st2, hser, hdeser, hsize, _, _, hslots⟩ :=
    algorithms.Result.serialImpl_round_trip mem R pre rest
      { memory := mem₀, this := algorithms.Result.new R.size } hvalid
  exact ⟨⟨image, st2, hser, hdeser, rfl, hsize, hslots⟩,
    ⟨image, st2, hser, hdeser, rfl, hsize, hslots⟩⟩

/-- Witness of C7: the example Result (slot 0 shares the 1-by-3 tensor, slot 1 is
null, slot 2 shares the 2-by-2 tensor), serialized into an empty archive and
deserialized into an empty memory. -/
theorem serialization_round_trip_witness :
    (∃ (image : List ArchiveEntry) (st2 : ObjectState),
      convolution2d.forward.Result.serializeImpl algorithms.Result.serialImpl
          { entries := [] } { memory := exampleTensors, this := exampleLayerResult } =
        some ({ entries := [] ++ image },
          { memory := exampleTensors, this := exampleLayerResult }) ∧
      convolution2d.forward.Result.deserializeImpl algorithms.Result.serialImpl
          { entries := image ++ [] }
          { memory := { objects := [] },
            this := algorithms.Result.new exampleLayerResult.size } =
        some ({ entries := [] }, st2) ∧
      (convolution2d.forward.Result.getSerializationTag exampleTags st2.this).1 =
        (convolution2d.forward.Result.getSerializationTag exampleTags exampleLayerResult).1 ∧
      st2.this.size = exampleLayerResult.size ∧
      ∀ i, i < exampleLayerResult.size →
        st2.memory.load (Argument.get st2.this i) =
          exampleTensors.load (Argument.get exampleLayerResult i) ∧
        (Argument.get st2.this i).isSome = (Argument.get exampleLayerResult i).isSome) ∧
    (∃ (image : List ArchiveEntry) (st2 : ObjectState),
      maximum_pooling3d.backward.Result.serializeImpl algorithms.Result.serialImpl
          { entries := [] } { memory := exampleTensors, this := exampleLayerResult } =
        some ({ entries := [] ++ image },
          { memory := exampleTensors, this := exampleLayerResult }) ∧
      maximum_pooling3d.backward.Result.deserializeImpl algorithms.Result.serialImpl
          { entries := image ++ [] }
          { memory := { objects := [] },
            this := algorithms.Result.new exampleLayerResult.size } =
        some ({ entries := [] }, st2) ∧
      (maximum_pooling3d.backward.Result.getSerializationTag exampleTags st2.this).1 =
        (maximum_pooling3d.backward.Result.getSerializationTag exampleTags
          exampleLayerResult).1 ∧
      st2.this.size = exampleLayerResult.size ∧
      ∀ i, i < exampleLayerResult.size →
        st2.memory.load (Argument.get st2.this i) =
          exampleTensors.load (Argument.get exampleLayerResult i) ∧
        (Argument.get st2.this i).isSome = (Argument.get exampleLayerResult i).isSome) :=
  serialization_round_trip exampleTags exampleTensors exampleLayerResult [] []
    { objects := [] } (by decide)

/-- The image the example Result is serialized to, computed by the definitions:
the slot count, the 1-by-3 tensor, a null marker, the 2-by-2 tensor. -/
theorem serializeImpl_example :
    (convolution2d.forward.Result.serializeImpl algorithms.Result.serialImpl
        { entries := [] } { memory := exampleTensors, this := exampleLayerResult }).map
      (fun r => r.1.entries) =
      some [ArchiveEntry.size 3,
        ArchiveEntry.object
          (some { elementType := FPType.double, dims := [1, 3], values := [7, 8, 9] }),
        ArchiveEntry.object none,
        ArchiveEntry.object
          (some { elementType := FPType.float, dims := [2, 2], values := [10, 20, 30, 40] })] := by
  decide

end layers
end neural_networks
end algorithms

end daal
